import Mathlib

/-!
# Signed configuration synchronisation (`Configuration.cpp`)

A shallow embedding of `ConfigurationPrivate` and of the handlers that
`Configuration` installs: the version comparator `lessThanVersion`, the
signature check `validate`, the override merge `setData`, the cache loader
`initCache`, the constructor's startup policy, the `QNetworkAccessManager::finished`
handler, and `sendRequest` with its single-shot timer.

The Qt and OpenSSL routines the code calls (JSON parsing, hashing, RSA public
decryption, date parsing, number parsing, collation) are not part of the
repository; they are fields of `Libs` and every general theorem holds for all
of them.  Whether a `QFile` call succeeds is an input (`FileOutcome`), and so is
the address of the reply object that `QNetworkAccessManager::get` returns.  The
build is the one with `NO_CACHE` and `LAST_CHECK_DAYS` undefined.
-/

namespace QtCommon

/-! ## Byte arrays and Base64 -/

/-- Contents of a `QByteArray`, one number per byte. -/
abbrev QByteArray := List Nat

/-- ASCII code of the Base64 digit with value `n` (alphabet `A-Z a-z 0-9 + /`). -/
def base64Char (n : Nat) : Nat :=
  if n < 26 then 65 + n
  else if n < 52 then 97 + (n - 26)
  else if n < 62 then 48 + (n - 52)
  else if n = 62 then 43
  else 47

/-- Model of `QByteArray::toBase64()`: three bytes become four digits, the tail is padded with `=`. -/
def toBase64 : QByteArray → QByteArray
  | [] => []
  | [a] => [base64Char (a / 4 % 64), base64Char (a % 4 * 16), 61, 61]
  | [a, b] => [base64Char (a / 4 % 64), base64Char (a % 4 * 16 + b / 16 % 16),
      base64Char (b % 16 * 4), 61]
  | a :: b :: c :: rest =>
      base64Char (a / 4 % 64) :: base64Char (a % 4 * 16 + b / 16 % 16) ::
        base64Char (b % 16 * 4 + c / 64 % 4) :: base64Char (c % 64) :: toBase64 rest

/-- Value of a Base64 digit, `none` for any other byte (Qt skips those). -/
def base64Value (ch : Nat) : Option Nat :=
  if 65 ≤ ch ∧ ch ≤ 90 then some (ch - 65)
  else if 97 ≤ ch ∧ ch ≤ 122 then some (ch - 97 + 26)
  else if 48 ≤ ch ∧ ch ≤ 57 then some (ch - 48 + 52)
  else if ch = 43 then some 62
  else if ch = 47 then some 63
  else none

/-- Loop of `QByteArray::fromBase64`: `buf` collects six bits per digit and a byte
is emitted as soon as eight bits are available. -/
def fromBase64Loop : QByteArray → Nat → Nat → QByteArray
  | [], _, _ => []
  | ch :: rest, buf, nbits =>
    match base64Value ch with
    | none => fromBase64Loop rest buf nbits
    | some d =>
      let buf1 := buf * 64 + d
      let nbits1 := nbits + 6
      if 8 ≤ nbits1 then
        (buf1 / 2 ^ (nbits1 - 8)) % 256 :: fromBase64Loop rest (buf1 % 2 ^ (nbits1 - 8)) (nbits1 - 8)
      else fromBase64Loop rest buf1 nbits1

/-- Model of `QByteArray::fromBase64(text)`. -/
def fromBase64 (text : QByteArray) : QByteArray := fromBase64Loop text 0 0

/-! ## JSON values, settings values -/

/-- A `QJsonValue`.  A number with an integral value is `double n`; every other
number is `fractional`.  `undefined` is what `QJsonObject::value` gives for a
missing key. -/
inductive QJsonValue where
  | null
  | bool (b : Bool)
  | double (n : Int)
  | fractional
  | string (s : String)
  | array (a : List QJsonValue)
  | object (o : List (String × QJsonValue))
  | undefined

/-- A `QJsonObject`: the members in order, looked up by key. -/
abbrev QJsonObject := List (String × QJsonValue)

/-- Model of `QJsonValue::toObject()`: the object, or an empty object for any other value. -/
def QJsonValue.toObject : QJsonValue → QJsonObject
  | .object o => o
  | _ => []

/-- Model of `QJsonValue::toString()`: the string, or a null string for any other value. -/
def QJsonValue.toQString : QJsonValue → String
  | .string s => s
  | _ => ""

/-- Model of `QJsonValue::toInt()`: the number when it is integral and fits an `int`, else `0`. -/
def QJsonValue.toInt : QJsonValue → Int
  | .double n => if -2147483648 ≤ n ∧ n ≤ 2147483647 then n else 0
  | _ => 0

/-- Model of `QJsonObject::contains(key)`. -/
def QJsonObject.contains (o : QJsonObject) (key : String) : Bool :=
  o.any fun kv => kv.1 == key

/-- Model of `QJsonObject::value(key)`. -/
def QJsonObject.value : QJsonObject → String → QJsonValue
  | [], _ => .undefined
  | (k, v) :: rest, key => if k = key then v else QJsonObject.value rest key

/-- Model of `object[key] = v` for a key the object contains: the member's value is replaced. -/
def QJsonObject.assign (o : QJsonObject) (key : String) (v : QJsonValue) : QJsonObject :=
  o.map fun kv => if kv.1 = key then (kv.1, v) else kv

/-- The key set of an object, in member order. -/
def QJsonObject.keys (o : QJsonObject) : List String := o.map Prod.fst

/-- Model of `QJsonArray::fromStringList`. -/
def fromStringList (l : List String) : QJsonValue := .array (l.map QJsonValue.string)

/-- A `QVariant` as read from `QSettings`; `other` stands for every type that is
neither `QVariant::String` nor `QVariant::StringList`. -/
inductive QVariant where
  | string (s : String)
  | stringList (l : List String)
  | other (typeId : Nat)

/-- The digest algorithms `validate` knows. -/
inductive Algorithm where
  | Sha1 | Sha224 | Sha256 | Sha384 | Sha512
  deriving DecidableEq

/-! ## Library routines and bundled resources -/

/-- The routines of Qt and OpenSSL that the code calls, the system-scope
settings, and the resources compiled into the binary. -/
structure Libs where
  /-- `RSA_public_decrypt(sig, ..., rsa, RSA_PKCS1_PADDING)`: the recovered bytes, `none` for `-1`. -/
  RSA_public_decrypt : QByteArray → QByteArray → Option QByteArray
  /-- `QCryptographicHash::hash(data, algorithm)`. -/
  hash : Algorithm → QByteArray → QByteArray
  /-- `QJsonDocument::fromJson(data)`: the root value, `null` when the text does not parse. -/
  fromJson : QByteArray → QJsonValue
  /-- `QDateTime::fromString(text, "yyyyMMddHHmmss'Z'")` as milliseconds since the epoch,
  `none` for an invalid date-time. -/
  fromString : String → Option Int
  /-- `QString::toUInt(&ok)`: the value when `ok` is set. -/
  toUInt : String → Option Nat
  /-- `QString::localeAwareCompare(a, b)`. -/
  localeAwareCompare : String → String → Int
  /-- `PEM_read_bio_RSAPublicKey` on the bytes of `:/config.pub`. -/
  PEM_read_bio_RSAPublicKey : QByteArray → Option QByteArray
  /-- `Settings(QSettings::SystemScope)`: `childKeys()` with `value(key)`. -/
  systemSettings : List (String × QVariant)
  /-- The resource `:/config.pub`, `none` when it cannot be opened. -/
  configPub : Option QByteArray
  /-- The resource `:/config.rsa` (Base64 text). -/
  configRsa : QByteArray
  /-- The resource `:/config.json`. -/
  configJson : QByteArray

/-! ## Version comparator -/

/-- Splitting a character list at every `sep`, empty parts kept. -/
def splitChars (sep : Char) : List Char → List Char → List (List Char)
  | [], acc => [acc.reverse]
  | c :: cs, acc =>
    if c = sep then acc.reverse :: splitChars sep cs [] else splitChars sep cs (c :: acc)

/-- Model of `QString::split(sep)`. -/
def split (s : String) (sep : Char) : List String :=
  (splitChars sep s.toList []).map String.mk

/-- Model of `QStringList::value(i)`: the element, or a null string past the end. -/
def QStringList.value (l : List String) (i : Nat) : String := l.getD i ""

/-- The `for` loop of `lessThanVersion`, at index `i` with `n` iterations left. -/
def lessThanVersionLoop (L : Libs) (curList avaList : List String) : Nat → Nat → Bool
  | 0, _ => false
  | n + 1, i =>
    match L.toUInt (QStringList.value curList i), L.toUInt (QStringList.value avaList i) with
    | some cur, some ava =>
      if cur ≠ ava then decide (cur < ava)
      else lessThanVersionLoop L curList avaList n (i + 1)
    | _, _ =>
      let status := L.localeAwareCompare (QStringList.value curList i) (QStringList.value avaList i)
      if status ≠ 0 then decide (status < 0)
      else lessThanVersionLoop L curList avaList n (i + 1)

/-- Embedding of `ConfigurationPrivate::lessThanVersion`. -/
def lessThanVersion (L : Libs) (current available : String) : Bool :=
  let curList := split current '.'
  let avaList := split available '.'
  lessThanVersionLoop L curList avaList (max curList.length avaList.length) 0

/-! ## Signature verifier -/

/-- DigestInfo header of a SHA-1 digest, `3021300906052b0e03021a05000414`. -/
def SHA1_OID : QByteArray :=
  [0x30, 0x21, 0x30, 0x09, 0x06, 0x05, 0x2b, 0x0e, 0x03, 0x02, 0x1a, 0x05, 0x00, 0x04, 0x14]

/-- DigestInfo header of a SHA-224 digest, `302d300d06096086480165030402040500041c`. -/
def SHA224_OID : QByteArray :=
  [0x30, 0x2d, 0x30, 0x0d, 0x06, 0x09, 0x60, 0x86, 0x48, 0x01, 0x65, 0x03, 0x04, 0x02, 0x04,
    0x05, 0x00, 0x04, 0x1c]

/-- DigestInfo header of a SHA-256 digest, `3031300d060960864801650304020105000420`. -/
def SHA256_OID : QByteArray :=
  [0x30, 0x31, 0x30, 0x0d, 0x06, 0x09, 0x60, 0x86, 0x48, 0x01, 0x65, 0x03, 0x04, 0x02, 0x01,
    0x05, 0x00, 0x04, 0x20]

/-- DigestInfo header of a SHA-384 digest, `3041300d060960864801650304020205000430`. -/
def SHA384_OID : QByteArray :=
  [0x30, 0x41, 0x30, 0x0d, 0x06, 0x09, 0x60, 0x86, 0x48, 0x01, 0x65, 0x03, 0x04, 0x02, 0x02,
    0x05, 0x00, 0x04, 0x30]

/-- DigestInfo header of a SHA-512 digest, `3051300d060960864801650304020305000440`. -/
def SHA512_OID : QByteArray :=
  [0x30, 0x51, 0x30, 0x0d, 0x06, 0x09, 0x60, 0x86, 0x48, 0x01, 0x65, 0x03, 0x04, 0x02, 0x03,
    0x05, 0x00, 0x04, 0x40]

/-- The header `validate` tests for each algorithm. -/
def Algorithm.oid : Algorithm → QByteArray
  | .Sha1 => SHA1_OID
  | .Sha224 => SHA224_OID
  | .Sha256 => SHA256_OID
  | .Sha384 => SHA384_OID
  | .Sha512 => SHA512_OID

/-- Model of `QByteArray::startsWith`. -/
def startsWith (a b : QByteArray) : Bool := b.isPrefixOf a

/-- Model of `QByteArray::endsWith`. -/
def endsWith (a b : QByteArray) : Bool := b.isSuffixOf a

/-- The `if`/`else if` chain of `validate` over the decrypted blob: `false` where the
code returns `false`, `true` where it falls through to the date test. -/
def digestMatches (L : Libs) (digest data : QByteArray) : Bool :=
  if startsWith digest SHA1_OID then
    if !endsWith digest (L.hash .Sha1 data) then false else true
  else if startsWith digest SHA224_OID then
    if !endsWith digest (L.hash .Sha224 data) then false else true
  else if startsWith digest SHA256_OID then
    if !endsWith digest (L.hash .Sha256 data) then false else true
  else if startsWith digest SHA384_OID then
    if !endsWith digest (L.hash .Sha384 data) then false else true
  else if startsWith digest SHA512_OID then
    if !endsWith digest (L.hash .Sha512 data) then false else true
  else false

/-- The `META-INF.DATE` of a document as the last two lines of `validate` read it. -/
def documentDate (L : Libs) (data : QByteArray) : Option Int :=
  let obj := ((L.fromJson data).toObject.value "META-INF").toObject
  L.fromString (obj.value "DATE").toQString

/-- The final comparison of `validate`, `currentDateTimeUtc() > fromString(DATE, ...)`.
An invalid `QDateTime` orders before every current time. -/
def dateIsPast (L : Libs) (now : Int) (data : QByteArray) : Bool :=
  match documentDate L data with
  | some t => decide (now > t)
  | none => true

/-- The blob `validate` inspects: the output of `RSA_public_decrypt` cut to the
returned size, empty when the call fails. -/
def decrypted (L : Libs) (key signature : QByteArray) : QByteArray :=
  (L.RSA_public_decrypt key signature).getD []

/-- Embedding of `ConfigurationPrivate::validate`; `rsa` is the member `d->rsa` and
`now` the value of `QDateTime::currentDateTimeUtc()`. -/
def validate (L : Libs) (rsa : Option QByteArray) (now : Int) (data signature : QByteArray) :
    Bool :=
  match rsa with
  | none => false
  | some key =>
    if data.isEmpty then false
    else
      let digest := decrypted L key signature
      if !digestMatches L digest data then false
      else dateIsPast L now data

/-! ## The configuration object -/

/-- The members of `ConfigurationPrivate` that the code reads and writes, the two
files in the cache directory, and the record of what the object has sent out. -/
structure Configuration where
  /-- `d->data`. -/
  data : QByteArray
  /-- `d->signature`. -/
  signature : QByteArray
  /-- `d->tmpsignature`. -/
  tmpsignature : QByteArray
  /-- `d->dataobject`, the value of `object()`. -/
  dataobject : QJsonObject
  /-- `d->rsaurl`. -/
  rsaurl : String
  /-- `d->url`. -/
  url : String
  /-- `d->rsa`, `none` for `nullptr`. -/
  rsa : Option QByteArray
  /-- `d->requestcache`: the `QNetworkReply*` values, each the address of a reply object. -/
  requestcache : List Nat
  /-- `d->forceUpdate`. -/
  forceUpdate : Bool
  /-- The file `cache + rsaurl.fileName()`, `none` when it does not exist. -/
  cacheRsa : Option QByteArray
  /-- The file `cache + url.fileName()`, `none` when it does not exist. -/
  cacheJson : Option QByteArray
  /-- Every `finished(changed, error)` emitted so far, oldest first. -/
  finished : List (Bool × String)
  /-- Requests handed to `QNetworkAccessManager::get`: reply address and URL. -/
  requests : List (Nat × String)
  /-- The reply addresses on which `deleteLater()` has been called, oldest first. -/
  deleted : List Nat

/-- A `QNetworkReply` as the `finished` handler sees it. -/
structure QNetworkReply where
  /-- The address of the reply object, the value of the pointer `reply`. -/
  id : Nat
  /-- `reply->url()`. -/
  url : String
  /-- `reply->error()` with `reply->errorString()`; `none` is `QNetworkReply::NoError`. -/
  error : Option String
  /-- `reply->readAll()`. -/
  body : QByteArray

/-- Whether the `QFile` calls made on one file succeed when they are made. -/
structure FileOutcome where
  /-- `f.remove()` removes the file. -/
  removeOk : Bool
  /-- `f.copy(resource, name)` creates the file from the bundled resource. -/
  copyOk : Bool
  /-- `f.open(mode)` returns true (for reading, on a file that exists). -/
  openOk : Bool

/-- The outcomes for the signature file and for the document file. -/
structure CacheOutcome where
  /-- The file `cache + rsaurl.fileName()`. -/
  rsa : FileOutcome
  /-- The file `cache + url.fileName()`. -/
  json : FileOutcome

/-- The outcomes during the constructor: its first `initCache`, a second one when it is
called, and `embedConf.open(QFile::ReadOnly)`. -/
structure StartupOutcome where
  /-- `d->initCache(false)`. -/
  first : CacheOutcome
  /-- `d->initCache(true)`. -/
  second : CacheOutcome
  /-- `embedConf.open(QFile::ReadOnly)` on `:/config.json`. -/
  embedOpen : Bool

/-- Every call on the file succeeds. -/
def FileOutcome.ok : FileOutcome := { removeOk := true, copyOk := true, openOk := true }

/-- No call on the file succeeds. -/
def FileOutcome.failing : FileOutcome := { removeOk := false, copyOk := false, openOk := false }

/-- Both files: every call succeeds. -/
def CacheOutcome.ok : CacheOutcome := { rsa := FileOutcome.ok, json := FileOutcome.ok }

/-- Both files: no call succeeds. -/
def CacheOutcome.failing : CacheOutcome :=
  { rsa := FileOutcome.failing, json := FileOutcome.failing }

/-- A constructor run in which every file call succeeds. -/
def StartupOutcome.ok : StartupOutcome :=
  { first := CacheOutcome.ok, second := CacheOutcome.ok, embedOpen := true }

/-- A constructor run in a cache directory where no file call succeeds. -/
def StartupOutcome.failing : StartupOutcome :=
  { first := CacheOutcome.failing, second := CacheOutcome.failing, embedOpen := true }

/-- `Q_EMIT finished(changed, error)`. -/
def emitFinished (c : Configuration) (changed : Bool) (error : String) : Configuration :=
  { c with finished := c.finished ++ [(changed, error)] }

/-- Model of `Settings::value(key)` on the system-scope settings. -/
def settingsValue (L : Libs) (key : String) : QVariant :=
  match L.systemSettings.lookup key with
  | some v => v
  | none => .other 0

/-- Body of the `for` loop of `setData` for one key of `childKeys()`. -/
def applyOverride (L : Libs) (dataobject : QJsonObject) (key : String) : QJsonObject :=
  if dataobject.contains key then
    match settingsValue L key with
    | .string s => dataobject.assign key (.string s)
    | .stringList l => dataobject.assign key (fromStringList l)
    | .other _ => dataobject
  else dataobject

/-- The JSON value `setData` writes for a key, when the settings hold a string or a string
list for it. -/
def overrideValue (L : Libs) (key : String) : Option QJsonValue :=
  match settingsValue L key with
  | .string s => some (.string s)
  | .stringList l => some (fromStringList l)
  | .other _ => none

/-- The object `setData` leaves in `dataobject`: the parsed document with the overrides applied. -/
def mergedObject (L : Libs) (_data : QByteArray) : QJsonObject :=
  (L.systemSettings.map Prod.fst).foldl (applyOverride L) (L.fromJson _data).toObject

/-- Embedding of `ConfigurationPrivate::setData`. -/
def setData (L : Libs) (_data : QByteArray) (c : Configuration) : Configuration :=
  { c with data := _data, dataobject := mergedObject L _data }

/-- The first two statements of each half of `initCache`,
`if(clear && f.exists()) f.remove(); if(!f.exists()) f.copy(resource, f.fileName())`:
the file they leave behind. -/
def prepareFile (clear : Bool) (io : FileOutcome) (file : Option QByteArray)
    (bundled : QByteArray) : Option QByteArray :=
  let afterRemove := if clear && file.isSome then (if io.removeOk then none else file) else file
  if afterRemove.isNone then (if io.copyOk then some bundled else none) else afterRemove

/-- `f.open(QFile::ReadOnly)` followed by `f.readAll()`: the content when the file exists
and the call succeeds, `none` when `open` returns false. -/
def readFile (io : FileOutcome) (file : Option QByteArray) : Option QByteArray :=
  if io.openOk then file else none

/-- Embedding of `ConfigurationPrivate::initCache`: `signature` is assigned and `setData` is
called only inside the two `if(f.open(QFile::ReadOnly))`. -/
def initCache (L : Libs) (clear : Bool) (io : CacheOutcome) (c : Configuration) :
    Configuration :=
  let rsaFile := prepareFile clear io.rsa c.cacheRsa L.configRsa
  let c := { c with cacheRsa := rsaFile }
  let c :=
    match readFile io.rsa rsaFile with
    | some text => { c with signature := fromBase64 text }
    | none => c
  let jsonFile := prepareFile clear io.json c.cacheJson L.configJson
  let c := { c with cacheJson := jsonFile }
  match readFile io.json jsonFile with
  | some bytes => setData L bytes c
  | none => c

/-- The statements that write one cache file in the reply handler,
`if(f.exists()) f.remove(); if(f.open(QFile::WriteOnly)) f.write(content)`: the file they
leave behind. -/
def writeFile (io : FileOutcome) (file : Option QByteArray) (content : QByteArray) :
    Option QByteArray :=
  let afterRemove := if file.isSome then (if io.removeOk then none else file) else file
  if io.openOk then some content else afterRemove

/-- The `META-INF.SERIAL` of a JSON object, `value("META-INF").toObject().value("SERIAL").toInt()`. -/
def serialOf (o : QJsonObject) : Int :=
  ((o.value "META-INF").toObject.value "SERIAL").toInt

/-- The object before the constructor body runs. -/
def Configuration.fresh (url rsaurl : String) (cacheRsa cacheJson : Option QByteArray) :
    Configuration :=
  { data := [], signature := [], tmpsignature := [], dataobject := [], rsaurl := rsaurl, url := url,
    rsa := none, requestcache := [], forceUpdate := false, cacheRsa := cacheRsa,
    cacheJson := cacheJson, finished := [], requests := [], deleted := [] }

/-- The startup policy of the constructor once the key is loaded (from `d->initCache(false)` to
the brace before `Q_EMIT finished`). -/
def startupPolicy (L : Libs) (now : Int) (io : StartupOutcome) (c : Configuration) :
    Configuration :=
  let c := initCache L false io.first c
  if !validate L c.rsa now c.data c.signature then initCache L true io.second c
  else
    let serial := serialOf c.dataobject
    if io.embedOpen then
      let bundledSerial := serialOf (L.fromJson L.configJson).toObject
      if serial < bundledSerial then initCache L true io.second c else c
    else c

/-- Embedding of the constructor `Configuration::Configuration`, from the loading of the
public key on.  `url` is `CONFIG_URL`, `rsaurl` the signature URL derived from it. -/
def Configuration.construct (L : Libs) (now : Int) (io : StartupOutcome) (url rsaurl : String)
    (cacheRsa cacheJson : Option QByteArray) : Configuration :=
  let c := Configuration.fresh url rsaurl cacheRsa cacheJson
  match L.configPub with
  | none => c
  | some key =>
    match L.PEM_read_bio_RSAPublicKey key with
    | none => c
    | some rsa => emitFinished (startupPolicy L now io { c with rsa := some rsa }) true ""

/-- Embedding of `Configuration::sendRequest`; `reply` is the pointer that
`d->net->get(d->req)` returns.  The reply joins `requestcache`, and a single-shot timer of
30 s that holds the same pointer is started. -/
def sendRequest (c : Configuration) (url : String) (reply : Nat) : Configuration :=
  { c with requestcache := c.requestcache ++ [reply],
           requests := c.requests ++ [(reply, url)] }

/-- The text of `tr("Request timed out")`. -/
def timedOutMessage : String := "Request timed out"

/-- The text of the message for a document that fails `validate`. -/
def invalidMessage : String :=
  "The configuration file located on the server cannot be validated."

/-- The text of the message for a document with a smaller serial. -/
def olderMessage : String :=
  "Your computer's configuration file is later than the server has."

/-- Embedding of the lambda connected to `QTimer::timeout` in `sendRequest`, for the
timer that holds the pointer `reply`. -/
def onTimeout (c : Configuration) (reply : Nat) : Configuration :=
  if !c.requestcache.contains reply then c
  else
    let c := { c with requestcache := c.requestcache.filter fun r => r != reply }
    let c := { c with deleted := c.deleted ++ [reply] }
    emitFinished c false timedOutMessage

/-- The `switch` of the lambda connected to `QNetworkAccessManager::finished`; `next` is the
pointer that `get` returns if the handler sends a request, `io` the outcome of the file
calls if it writes the cache. -/
def onFinishedSwitch (L : Libs) (now : Int) (reply : QNetworkReply) (next : Nat)
    (io : CacheOutcome) (c : Configuration) : Configuration :=
  match reply.error with
  | none =>
    if reply.url = c.rsaurl then
      let c := { c with tmpsignature := fromBase64 reply.body }
      if c.forceUpdate then sendRequest c c.url next
      else if validate L c.rsa now c.data c.tmpsignature then emitFinished c false ""
      else sendRequest c c.url next
    else if reply.url = c.url then
      let data := reply.body
      if !validate L c.rsa now data c.tmpsignature then emitFinished c false invalidMessage
      else
        let obj := ((L.fromJson data).toObject.value "META-INF").toObject
        let old := (c.dataobject.value "META-INF").toObject
        if (old.value "SERIAL").toInt > (obj.value "SERIAL").toInt then
          emitFinished c false olderMessage
        else
          let c := setData L data c
          let c := { c with signature := toBase64 c.tmpsignature }
          let c := { c with cacheJson := writeFile io.json c.cacheJson c.data }
          let c := { c with cacheRsa := writeFile io.rsa c.cacheRsa c.signature }
          emitFinished c true ""
    else c
  | some errorString => emitFinished c false errorString

/-- Embedding of the lambda connected to `QNetworkAccessManager::finished`:
`requestcache.removeAll(reply)`, the `switch`, `reply->deleteLater()`. -/
def onFinished (L : Libs) (now : Int) (reply : QNetworkReply) (next : Nat) (io : CacheOutcome)
    (c : Configuration) : Configuration :=
  let c := { c with requestcache := c.requestcache.filter fun r => r != reply.id }
  let c := onFinishedSwitch L now reply next io c
  { c with deleted := c.deleted ++ [reply.id] }

/-- Embedding of `Configuration::update`; `reply` is the pointer `get` returns. -/
def update (c : Configuration) (force : Bool) (reply : Nat) : Configuration :=
  sendRequest { c with forceUpdate := force } c.rsaurl reply

/-- What can happen to the object after construction. -/
inductive Event where
  | finished (now : Int) (reply : QNetworkReply) (next : Nat) (io : CacheOutcome)
  | timeout (reply : Nat)
  | update (force : Bool) (reply : Nat)

/-- The reply address that the handling of an event may put into `requestcache`. -/
def Event.issued : Event → List Nat
  | .finished _ _ next _ => [next]
  | .timeout _ => []
  | .update _ reply => [reply]

/-- One event handled. -/
def step (L : Libs) (c : Configuration) : Event → Configuration
  | .finished now reply next io => onFinished L now reply next io c
  | .timeout reply => onTimeout c reply
  | .update force reply => update c force reply

/-- A sequence of events handled in order. -/
def run (L : Libs) (c : Configuration) (events : List Event) : Configuration :=
  events.foldl (step L) c

/-! ## A concrete instance of the library routines

Used for the closed examples only: decimal parsing, code-point collation, and
stand-ins for the JSON parser, the hash and the RSA primitive that are small
enough to evaluate. -/

/-- Value of a string of decimal digits, `none` when another character occurs. -/
def decimalValue : List Char → Nat → Option Nat
  | [], acc => some acc
  | c :: cs, acc =>
    if '0' ≤ c ∧ c ≤ '9' then decimalValue cs (acc * 10 + (c.toNat - 48)) else none

/-- Unsigned 32-bit parse of a non-empty string of decimal digits. -/
def decimalToUInt (s : String) : Option Nat :=
  match s.toList with
  | [] => none
  | cs =>
    match decimalValue cs 0 with
    | some n => if n < 4294967296 then some n else none
    | none => none

/-- Comparison by code point, the collation of the C locale. -/
def compareCodePoints : List Char → List Char → Int
  | [], [] => 0
  | [], _ :: _ => -1
  | _ :: _, [] => 1
  | a :: as, b :: bs =>
    if a.toNat < b.toNat then -1
    else if b.toNat < a.toNat then 1
    else compareCodePoints as bs

/-- The `META-INF` member of the example documents. -/
def exampleMeta (serial : Int) (date : String) : String × QJsonValue :=
  ("META-INF", .object [("SERIAL", .double serial), ("DATE", .string date)])

/-- The example documents: the byte string `[n, k]` stands for a document with serial `n`
whose `DATE` is in 2015 (`k = 0` and `k = 2`, with different contents) or in 2035 (`k = 1`),
or whose `META-INF` has no `DATE` member (`k = 3`). -/
def exampleFromJson : QByteArray → QJsonValue
  | [n, 0] => .object [exampleMeta n "20150101000000Z", ("SIVA-URL", .string "https://a.example")]
  | [n, 1] => .object [exampleMeta n "20350101000000Z", ("SIVA-URL", .string "https://a.example")]
  | [n, 2] => .object [exampleMeta n "20150101000000Z", ("SIVA-URL", .string "https://b.example")]
  | [n, 3] =>
    .object [("META-INF", .object [("SERIAL", .double n)]),
      ("SIVA-URL", .string "https://a.example")]
  | _ => .null

/-- The dates of the example documents, in milliseconds since the epoch. -/
def exampleFromString (text : String) : Option Int :=
  if text = "20150101000000Z" then some 1420070400000
  else if text = "20350101000000Z" then some 2051222400000
  else none

/-- The concrete instance: the RSA primitive returns the signature bytes as they are, the
hash of a payload is the payload, the bundled document is `[5, 0]`. -/
def exampleLibs : Libs where
  RSA_public_decrypt := fun _ signature => some signature
  hash := fun _ data => data
  fromJson := exampleFromJson
  fromString := exampleFromString
  toUInt := decimalToUInt
  localeAwareCompare := fun a b => compareCodePoints a.toList b.toList
  PEM_read_bio_RSAPublicKey := fun key => some key
  systemSettings := []
  configPub := some [1]
  configRsa := toBase64 (SHA256_OID ++ [5, 0])
  configJson := [5, 0]

/-- An instant in 2017, in milliseconds since the epoch. -/
def exampleNow : Int := 1500000000000

/-- The example routines with three system-scope overrides: a string for `META-INF`, a
string for `SIVA-URL`, and a string for a key no example document has. -/
def overrideLibs : Libs :=
  { exampleLibs with
    systemSettings :=
      [("META-INF", .string "local"), ("SIVA-URL", .string "https://local.example"),
        ("PROXY", .string "none")] }

/-- The URL of the example document. -/
def exampleUrl : String := "https://id.example/config.json"

/-- The URL of the example signature. -/
def exampleRsaUrl : String := "https://id.example/config.rsa"

/-- The example object after construction with an empty cache directory in which every
file call succeeds. -/
def exampleStart : Configuration :=
  Configuration.construct exampleLibs exampleNow StartupOutcome.ok exampleUrl exampleRsaUrl
    none none

/-- A successful response to the signature request (reply address 0), carrying the
signature of `document`. -/
def exampleSignatureReply (document : QByteArray) : QNetworkReply :=
  { id := 0, url := exampleRsaUrl, error := none, body := toBase64 (SHA256_OID ++ document) }

/-- A successful response to the document request (reply address 1), carrying `document`. -/
def exampleDocumentReply (document : QByteArray) : QNetworkReply :=
  { id := 1, url := exampleUrl, error := none, body := document }

/-- The example object after `update(false)` and a signature response for `document`:
when `document` is not the current one, the document request (reply 1) is pending. -/
def exampleAwaitingDocument (document : QByteArray) : Configuration :=
  run exampleLibs exampleStart
    [.update false 0, .finished exampleNow (exampleSignatureReply document) 1 CacheOutcome.ok]

/-- The example object after `update(false)`, the signature response and the document
response for `document`. -/
def exampleAfterDocument (document : QByteArray) : Configuration :=
  run exampleLibs exampleStart
    [.update false 0, .finished exampleNow (exampleSignatureReply document) 1 CacheOutcome.ok,
      .finished exampleNow (exampleDocumentReply document) 2 CacheOutcome.ok]

/-- The example object after `update(false)` and a signature response that matches the
current document, so that the response is handled and no request is pending. -/
def exampleUnchanged : Configuration :=
  run exampleLibs exampleStart
    [.update false 0, .finished exampleNow (exampleSignatureReply [5, 0]) 1 CacheOutcome.ok]

/-! ## Version comparator: properties -/

theorem value_cons_succ (c : String) (cs : List String) (i : Nat) :
    QStringList.value (c :: cs) (i + 1) = QStringList.value cs i := by
  simp [QStringList.value]

theorem lessThanVersionLoop_cons (L : Libs) (c a : String) (cs as : List String) (n i : Nat) :
    lessThanVersionLoop L (c :: cs) (a :: as) n (i + 1) = lessThanVersionLoop L cs as n i := by
  induction n generalizing i with
  | zero => simp [lessThanVersionLoop]
  | succ n ih =>
    simp only [lessThanVersionLoop, value_cons_succ, ih]

theorem lessThanVersionLoop_numeric (L : Libs) (cur ava : List Nat) :
    ∀ (cs as : List String), cs.map L.toUInt = cur.map some → as.map L.toUInt = ava.map some →
      cur.length = ava.length →
      (lessThanVersionLoop L cs as cur.length 0 = true ↔ List.Lex (· < ·) cur ava) := by
  induction cur generalizing ava with
  | nil =>
    intro cs as _ _ hlen
    cases ava with
    | nil => simp [lessThanVersionLoop]
    | cons y ys => simp at hlen
  | cons x xs ih =>
    intro cs as hc ha hlen
    cases ava with
    | nil => simp at hlen
    | cons y ys =>
      cases cs with
      | nil => simp at hc
      | cons c cs =>
        cases as with
        | nil => simp at ha
        | cons a as =>
          simp only [List.map_cons, List.cons.injEq] at hc ha
          simp only [List.length_cons, Nat.add_right_cancel_iff] at hlen
          have hv1 : QStringList.value (c :: cs) 0 = c := by simp [QStringList.value]
          have hv2 : QStringList.value (a :: as) 0 = a := by simp [QStringList.value]
          simp only [List.length_cons, lessThanVersionLoop, hv1, hv2, hc.1, ha.1]
          by_cases hxy : x = y
          · subst hxy
            simp only [ne_eq, not_true_eq_false, if_false, lessThanVersionLoop_cons]
            rw [ih ys cs as hc.2 ha.2 hlen]
            exact List.Lex.cons_iff.symm
          · simp only [ne_eq, hxy, not_false_eq_true, if_true, decide_eq_true_eq]
            constructor
            · intro h
              exact List.Lex.rel h
            · intro h
              cases h with
              | cons h => exact absurd rfl hxy
              | rel h => exact h

theorem lex_lt_irrefl (l : List Nat) : ¬ List.Lex (· < ·) l l := by
  induction l with
  | nil => exact List.Lex.not_nil_right _ _
  | cons x xs ih =>
    intro h
    exact ih (List.Lex.cons_iff.mp h)

theorem split_length_of_map (L : Libs) (s : String) (nums : List Nat)
    (h : (split s '.').map L.toUInt = nums.map some) : (split s '.').length = nums.length := by
  have := congrArg List.length h
  simpa using this

/-- C9. When both version strings have the same number of dot-separated segments and every
segment parses as an unsigned integer, `lessThanVersion current available` is true exactly
when the sequence of parsed numbers of `current` is lexicographically smaller than that of
`available`, and `lessThanVersion current current` is false. -/
theorem lessThanVersion_numeric (L : Libs) (current available : String) (cur ava : List Nat)
    (hc : (split current '.').map L.toUInt = cur.map some)
    (ha : (split available '.').map L.toUInt = ava.map some)
    (hlen : cur.length = ava.length) :
    (lessThanVersion L current available = true ↔ List.Lex (· < ·) cur ava) ∧
      lessThanVersion L current current = false := by
  have h1 := split_length_of_map L current cur hc
  have h2 := split_length_of_map L available ava ha
  constructor
  · unfold lessThanVersion
    simp only [h1, h2, hlen, max_self]
    rw [← hlen]
    exact lessThanVersionLoop_numeric L cur ava _ _ hc ha hlen
  · unfold lessThanVersion
    simp only [h1, max_self]
    have := lessThanVersionLoop_numeric L cur cur _ _ hc hc rfl
    cases hb : lessThanVersionLoop L (split current '.') (split current '.') cur.length 0 with
    | false => rfl
    | true => exact absurd (this.mp hb) (lex_lt_irrefl cur)

/-- C9, at `1.2.3` against `1.2.10`: the last segments compare as the numbers 3 and 10. -/
theorem lessThanVersion_numeric_witness :
    ((lessThanVersion exampleLibs "1.2.3" "1.2.10" = true ↔
        List.Lex (· < ·) [1, 2, 3] [1, 2, 10]) ∧
      lessThanVersion exampleLibs "1.2.3" "1.2.3" = false) ∧
    lessThanVersion exampleLibs "1.2.3" "1.2.10" = true :=
  ⟨lessThanVersion_numeric exampleLibs "1.2.3" "1.2.10" [1, 2, 3] [1, 2, 10]
      (by decide) (by decide) (by decide), by decide⟩

/-- C8, as the code behaves: when `toUInt` rejects the empty string and the collation puts
the empty string before `0`, `lessThanVersion "1.2" "1.2.0"` is true. -/
theorem lessThanVersion_trailing_zero (L : Libs) (h1 : L.toUInt "1" = some 1)
    (h2 : L.toUInt "2" = some 2) (h3 : L.toUInt "" = none)
    (h4 : L.localeAwareCompare "" "0" < 0) :
    lessThanVersion L "1.2" "1.2.0" = true := by
  have hs1 : split "1.2" '.' = ["1", "2"] := by decide
  have hs2 : split "1.2.0" '.' = ["1", "2", "0"] := by decide
  have hne : L.localeAwareCompare "" "0" ≠ 0 := ne_of_lt h4
  simp [lessThanVersion, hs1, hs2, lessThanVersionLoop, QStringList.value, h1, h2, h3, h4, hne]

/-- C8, with decimal parsing and code-point collation. -/
theorem lessThanVersion_trailing_zero_witness :
    lessThanVersion exampleLibs "1.2" "1.2.0" = true :=
  lessThanVersion_trailing_zero exampleLibs (by decide) (by decide) (by decide) (by decide)

/-- C8 fails as stated: with decimal parsing and code-point collation
`lessThanVersion "1.2" "1.2.0"` is not false. -/
theorem lessThanVersion_trailing_zero_counterexample :
    ¬ (lessThanVersion exampleLibs "1.2" "1.2.0" = false) := by
  decide

/-! ## Signature verifier: properties -/

theorem second_byte_of_isPrefixOf (a0 a1 : Nat) (t d : QByteArray)
    (h : List.isPrefixOf (a0 :: a1 :: t) d = true) : d.getD 1 0 = a1 := by
  cases d with
  | nil => simp [List.isPrefixOf] at h
  | cons d0 ds =>
    cases ds with
    | nil => simp [List.isPrefixOf] at h
    | cons d1 ds =>
      simp only [List.isPrefixOf, Bool.and_eq_true, beq_iff_eq] at h
      simp [h.2.1]

theorem second_byte_of_startsWith (d : QByteArray) (alg : Algorithm)
    (h : startsWith d alg.oid = true) : d.getD 1 0 = alg.oid.getD 1 0 := by
  cases alg <;> exact second_byte_of_isPrefixOf _ _ _ d h

theorem startsWith_other (d : QByteArray) (a b : Algorithm) (h : startsWith d a.oid = true)
    (hne : b ≠ a) : startsWith d b.oid = false := by
  cases hb : startsWith d b.oid with
  | false => rfl
  | true =>
    have h1 := second_byte_of_startsWith d a h
    have h2 := second_byte_of_startsWith d b hb
    rw [h1] at h2
    cases a <;> cases b <;> first | exact absurd rfl hne | exact absurd h2 (by decide)

theorem digestMatches_iff (L : Libs) (digest data : QByteArray) :
    digestMatches L digest data = true ↔
      ∃ alg : Algorithm, startsWith digest alg.oid = true ∧
        endsWith digest (L.hash alg data) = true := by
  constructor
  · intro h
    unfold digestMatches at h
    by_cases h1 : startsWith digest SHA1_OID = true
    · refine ⟨.Sha1, h1, ?_⟩
      simpa [h1] using h
    by_cases h2 : startsWith digest SHA224_OID = true
    · refine ⟨.Sha224, h2, ?_⟩
      simpa [h1, h2] using h
    by_cases h3 : startsWith digest SHA256_OID = true
    · refine ⟨.Sha256, h3, ?_⟩
      simpa [h1, h2, h3] using h
    by_cases h4 : startsWith digest SHA384_OID = true
    · refine ⟨.Sha384, h4, ?_⟩
      simpa [h1, h2, h3, h4] using h
    by_cases h5 : startsWith digest SHA512_OID = true
    · refine ⟨.Sha512, h5, ?_⟩
      simpa [h1, h2, h3, h4, h5] using h
    simp [h1, h2, h3, h4, h5] at h
  · rintro ⟨alg, hs, he⟩
    have o1 := startsWith_other digest alg .Sha1 hs
    have o2 := startsWith_other digest alg .Sha224 hs
    have o3 := startsWith_other digest alg .Sha256 hs
    have o4 := startsWith_other digest alg .Sha384 hs
    have o5 := startsWith_other digest alg .Sha512 hs
    unfold digestMatches
    cases alg
    · simp only [Algorithm.oid] at hs he
      simp [hs, he]
    · simp only [Algorithm.oid] at hs he o1
      simp [hs, he, o1 (by decide)]
    · simp only [Algorithm.oid] at hs he o1 o2
      simp [hs, he, o1 (by decide), o2 (by decide)]
    · simp only [Algorithm.oid] at hs he o1 o2 o3
      simp [hs, he, o1 (by decide), o2 (by decide), o3 (by decide)]
    · simp only [Algorithm.oid] at hs he o1 o2 o3 o4
      simp [hs, he, o1 (by decide), o2 (by decide), o3 (by decide), o4 (by decide)]

theorem validate_eq_true_iff (L : Libs) (rsa : Option QByteArray) (now : Int)
    (data signature : QByteArray) :
    validate L rsa now data signature = true ↔
      ∃ key, rsa = some key ∧ data ≠ [] ∧
        digestMatches L (decrypted L key signature) data = true ∧ dateIsPast L now data = true := by
  unfold validate
  cases rsa with
  | none => simp
  | some key =>
    cases data with
    | nil => simp
    | cons b bs => simp

/-- C4. `validate` returns true only if a key is loaded, the payload is non-empty, and the
decrypted blob starts with the DigestInfo header of one of the five algorithms and ends
with the hash of the payload under that algorithm; it returns false when no key is loaded,
when the payload is empty, when decryption fails, when no header matches, and when a
header matches but the hash under its algorithm does not. -/
theorem validate_sound (L : Libs) (rsa : Option QByteArray) (now : Int)
    (payload signature : QByteArray) :
    (validate L rsa now payload signature = true →
      ∃ key, rsa = some key ∧ payload ≠ [] ∧
        ∃ alg : Algorithm, startsWith (decrypted L key signature) alg.oid = true ∧
          endsWith (decrypted L key signature) (L.hash alg payload) = true) ∧
    (rsa = none → validate L rsa now payload signature = false) ∧
    (payload = [] → validate L rsa now payload signature = false) ∧
    (∀ key, rsa = some key → L.RSA_public_decrypt key signature = none →
      validate L rsa now payload signature = false) ∧
    (∀ key, rsa = some key →
      (∀ alg : Algorithm, startsWith (decrypted L key signature) alg.oid = false) →
      validate L rsa now payload signature = false) ∧
    (∀ key alg, rsa = some key → startsWith (decrypted L key signature) alg.oid = true →
      endsWith (decrypted L key signature) (L.hash alg payload) = false →
      validate L rsa now payload signature = false) := by
  have key_fact : ∀ key, rsa = some key →
      (¬ ∃ alg : Algorithm, startsWith (decrypted L key signature) alg.oid = true ∧
          endsWith (decrypted L key signature) (L.hash alg payload) = true) →
      validate L rsa now payload signature = false := by
    intro key hk hno
    cases hv : validate L rsa now payload signature with
    | false => rfl
    | true =>
      obtain ⟨key2, hk2, _, hd, _⟩ := (validate_eq_true_iff L rsa now payload signature).mp hv
      have : key2 = key := by
        rw [hk] at hk2
        exact (Option.some.inj hk2).symm
      subst this
      exact absurd ((digestMatches_iff L _ payload).mp hd) hno
  refine ⟨?_, ?_, ?_, ?_, ?_, ?_⟩
  · intro hv
    obtain ⟨key, hk, hne, hd, _⟩ := (validate_eq_true_iff L rsa now payload signature).mp hv
    exact ⟨key, hk, hne, (digestMatches_iff L _ payload).mp hd⟩
  · intro h
    subst h
    rfl
  · intro h
    subst h
    cases rsa <;> rfl
  · intro key hk hdec
    apply key_fact key hk
    rintro ⟨alg, hs, _⟩
    have : decrypted L key signature = [] := by simp [decrypted, hdec]
    rw [this] at hs
    cases alg <;> simp [startsWith, Algorithm.oid, SHA1_OID, SHA224_OID, SHA256_OID, SHA384_OID,
      SHA512_OID, List.isPrefixOf] at hs
  · intro key hk hall
    apply key_fact key hk
    rintro ⟨alg, hs, _⟩
    rw [hall alg] at hs
    exact Bool.noConfusion hs
  · intro key alg hk hs he
    apply key_fact key hk
    rintro ⟨alg2, hs2, he2⟩
    by_cases heq : alg2 = alg
    · subst heq
      rw [he] at he2
      exact Bool.noConfusion he2
    · have := startsWith_other _ alg alg2 hs heq
      rw [this] at hs2
      exact Bool.noConfusion hs2

/-- C4, at a concrete input: with the example routines the signature `SHA256_OID ++ [5, 0]`
validates the payload `[5, 0]`, and the conclusion of `validate_sound` holds there. -/
theorem validate_sound_witness :
    validate exampleLibs (some [1]) exampleNow [5, 0] (SHA256_OID ++ [5, 0]) = true ∧
    ∃ key, some [1] = some key ∧ ([5, 0] : QByteArray) ≠ [] ∧
      ∃ alg : Algorithm,
        startsWith (decrypted exampleLibs key (SHA256_OID ++ [5, 0])) alg.oid = true ∧
        endsWith (decrypted exampleLibs key (SHA256_OID ++ [5, 0]))
          (exampleLibs.hash alg [5, 0]) = true :=
  ⟨by decide,
    (validate_sound exampleLibs (some [1]) exampleNow [5, 0] (SHA256_OID ++ [5, 0])).1
      (by decide)⟩

/-- C5, as the code behaves. For a payload whose `META-INF.DATE` parses to the instant `t`:
when `t` is not earlier than the current time `validate` returns false for every signature,
and `validate` returns true only when `t` is strictly earlier than the current time. -/
theorem validate_future_date (L : Libs) (rsa : Option QByteArray) (now t : Int)
    (payload signature : QByteArray) (hdate : documentDate L payload = some t) :
    (now ≤ t → validate L rsa now payload signature = false) ∧
    (validate L rsa now payload signature = true → t < now) := by
  have h2 : validate L rsa now payload signature = true → t < now := by
    intro hv
    obtain ⟨_, _, _, _, hd⟩ := (validate_eq_true_iff L rsa now payload signature).mp hv
    simpa [dateIsPast, hdate] using hd
  refine ⟨?_, h2⟩
  intro hle
  cases hv : validate L rsa now payload signature with
  | false => rfl
  | true => exact absurd (h2 hv) (not_lt.mpr hle)

/-- C5, at a concrete input: the example document `[6, 1]` is dated 2035; in 2017 it is
rejected although the decrypted digest matches the payload. -/
theorem validate_future_date_witness :
    digestMatches exampleLibs (decrypted exampleLibs [1] (SHA256_OID ++ [6, 1])) [6, 1] = true ∧
    validate exampleLibs (some [1]) exampleNow [6, 1] (SHA256_OID ++ [6, 1]) = false :=
  ⟨by decide,
    (validate_future_date exampleLibs (some [1]) exampleNow 2051222400000 [6, 1]
      (SHA256_OID ++ [6, 1]) (by decide)).1 (by decide)⟩

/-- C5 fails as stated: the `META-INF` of the example document `[5, 3]` has no `DATE`, so
there is no instant earlier than the current time, and `validate` returns true for it. -/
theorem validate_without_date_counterexample :
    ((exampleLibs.fromJson [5, 3]).toObject.value "META-INF").toObject.contains "DATE" = false ∧
    documentDate exampleLibs [5, 3] = none ∧
    validate exampleLibs (some [1]) exampleNow [5, 3] (SHA256_OID ++ [5, 3]) = true := by
  decide

/-! ## Override merge: properties -/

theorem contains_iff_mem_keys (o : QJsonObject) (key : String) :
    o.contains key = true ↔ key ∈ o.keys := by
  simp only [QJsonObject.contains, QJsonObject.keys, List.any_eq_true, beq_iff_eq, List.mem_map]

theorem assign_cons_same (rest : QJsonObject) (key : String) (w v : QJsonValue) :
    QJsonObject.assign ((key, w) :: rest) key v = (key, v) :: QJsonObject.assign rest key v := by
  simp only [QJsonObject.assign, List.map_cons, if_true]

theorem assign_cons_other (rest : QJsonObject) (k key : String) (w v : QJsonValue)
    (h : k ≠ key) :
    QJsonObject.assign ((k, w) :: rest) key v = (k, w) :: QJsonObject.assign rest key v := by
  simp only [QJsonObject.assign, List.map_cons, if_neg h]

theorem value_cons_same (rest : QJsonObject) (key : String) (w : QJsonValue) :
    QJsonObject.value ((key, w) :: rest) key = w := by
  simp only [QJsonObject.value, if_true]

theorem value_cons_other (rest : QJsonObject) (k key : String) (w : QJsonValue) (h : k ≠ key) :
    QJsonObject.value ((k, w) :: rest) key = QJsonObject.value rest key := by
  simp only [QJsonObject.value, if_neg h]

theorem keys_assign (o : QJsonObject) (key : String) (v : QJsonValue) :
    (o.assign key v).keys = o.keys := by
  induction o with
  | nil => rfl
  | cons kv rest ih =>
    obtain ⟨k, w⟩ := kv
    by_cases h : k = key
    · subst h
      rw [assign_cons_same]
      simp only [QJsonObject.keys, List.map_cons] at ih ⊢
      rw [ih]
    · rw [assign_cons_other _ _ _ _ _ h]
      simp only [QJsonObject.keys, List.map_cons] at ih ⊢
      rw [ih]

theorem value_assign_same (o : QJsonObject) (key : String) (v : QJsonValue)
    (h : key ∈ o.keys) : (o.assign key v).value key = v := by
  induction o with
  | nil => simp [QJsonObject.keys] at h
  | cons kv rest ih =>
    obtain ⟨k, w⟩ := kv
    by_cases hk : k = key
    · subst hk
      rw [assign_cons_same, value_cons_same]
    · have hrest : key ∈ QJsonObject.keys rest := by
        simp only [QJsonObject.keys, List.map_cons, List.mem_cons] at h
        rcases h with h | h
        · exact absurd h.symm hk
        · exact h
      rw [assign_cons_other _ _ _ _ _ hk, value_cons_other _ _ _ _ hk]
      exact ih hrest

theorem value_assign_other (o : QJsonObject) (k key : String) (v : QJsonValue)
    (h : k ≠ key) : (o.assign k v).value key = o.value key := by
  induction o with
  | nil => rfl
  | cons kv rest ih =>
    obtain ⟨k2, w⟩ := kv
    by_cases hk : k2 = k
    · subst hk
      rw [assign_cons_same, value_cons_other _ _ _ _ h, value_cons_other _ _ _ _ h]
      exact ih
    · rw [assign_cons_other _ _ _ _ _ hk]
      by_cases hk3 : k2 = key
      · subst hk3
        rw [value_cons_same, value_cons_same]
      · rw [value_cons_other _ _ _ _ hk3, value_cons_other _ _ _ _ hk3]
        exact ih

theorem keys_applyOverride (L : Libs) (o : QJsonObject) (k : String) :
    (applyOverride L o k).keys = o.keys := by
  unfold applyOverride
  split
  · split <;> simp [keys_assign]
  · rfl

theorem keys_foldl_applyOverride (L : Libs) (ks : List String) (o : QJsonObject) :
    (ks.foldl (applyOverride L) o).keys = o.keys := by
  induction ks generalizing o with
  | nil => rfl
  | cons k ks ih => simp only [List.foldl_cons, ih, keys_applyOverride]

theorem value_applyOverride_other (L : Libs) (o : QJsonObject) (k key : String) (h : k ≠ key) :
    (applyOverride L o k).value key = o.value key := by
  unfold applyOverride
  split
  · split <;> simp [value_assign_other, h]
  · rfl

theorem applyOverride_same_some (L : Libs) (o : QJsonObject) (key : String) (v : QJsonValue)
    (hv : overrideValue L key = some v) (hmem : key ∈ o.keys) :
    (applyOverride L o key).value key = v := by
  have hc := (contains_iff_mem_keys o key).mpr hmem
  unfold overrideValue at hv
  unfold applyOverride
  rw [if_pos hc]
  cases hs : settingsValue L key with
  | string s =>
    rw [hs] at hv
    simp only [Option.some.injEq] at hv
    simp [← hv, value_assign_same o key _ hmem]
  | stringList l =>
    rw [hs] at hv
    simp only [Option.some.injEq] at hv
    simp [← hv, value_assign_same o key _ hmem]
  | other n =>
    rw [hs] at hv
    simp at hv

theorem applyOverride_same_none (L : Libs) (o : QJsonObject) (key : String)
    (hv : overrideValue L key = none) : applyOverride L o key = o := by
  unfold overrideValue at hv
  unfold applyOverride
  cases hs : settingsValue L key with
  | string s => rw [hs] at hv; simp at hv
  | stringList l => rw [hs] at hv; simp at hv
  | other n => simp

theorem value_foldl_some (L : Libs) (key : String) (v : QJsonValue)
    (hv : overrideValue L key = some v) (ks : List String) (o : QJsonObject)
    (hmem : key ∈ o.keys) (h : key ∈ ks ∨ o.value key = v) :
    (ks.foldl (applyOverride L) o).value key = v := by
  induction ks generalizing o with
  | nil =>
    rcases h with h | h
    · simp at h
    · exact h
  | cons k ks ih =>
    simp only [List.foldl_cons]
    have hmem2 : key ∈ (applyOverride L o k).keys := by
      rw [keys_applyOverride]
      exact hmem
    by_cases hk : k = key
    · subst hk
      exact ih _ hmem2 (Or.inr (applyOverride_same_some L o k v hv hmem))
    · apply ih _ hmem2
      rcases h with h | h
      · simp only [List.mem_cons] at h
        rcases h with h | h
        · exact absurd h.symm hk
        · exact Or.inl h
      · right
        rw [value_applyOverride_other L o k key hk]
        exact h

theorem value_foldl_none (L : Libs) (key : String) (hv : overrideValue L key = none)
    (ks : List String) (o : QJsonObject) :
    (ks.foldl (applyOverride L) o).value key = o.value key := by
  induction ks generalizing o with
  | nil => rfl
  | cons k ks ih =>
    simp only [List.foldl_cons]
    rw [ih]
    by_cases hk : k = key
    · subst hk
      rw [applyOverride_same_none L o k hv]
    · exact value_applyOverride_other L o k key hk

theorem mem_keys_of_lookup (l : List (String × QVariant)) (key : String) (v : QVariant)
    (h : l.lookup key = some v) : key ∈ l.map Prod.fst := by
  induction l with
  | nil => simp at h
  | cons kv rest ih =>
    obtain ⟨k, w⟩ := kv
    by_cases hk : key = k
    · simp [hk]
    · have hb : (key == k) = false := by simpa using hk
      simp only [List.lookup, hb] at h
      simp [ih h]

/-- C10. The override merge of `setData`: a top-level key of the parsed document for which
the settings hold a string gets that string as its value, and the array of the strings when
they hold a string list; the merged object has the key set of the parsed document, so an
override for an absent key adds nothing; a key without a string or string-list override
keeps its parsed value; and the stored bytes are the input bytes. -/
theorem setData_override_merge (L : Libs) (c : Configuration) (_data : QByteArray)
    (key : String) :
    (∀ s, (L.fromJson _data).toObject.contains key = true →
      L.systemSettings.lookup key = some (.string s) →
      (setData L _data c).dataobject.value key = .string s) ∧
    (∀ l, (L.fromJson _data).toObject.contains key = true →
      L.systemSettings.lookup key = some (.stringList l) →
      (setData L _data c).dataobject.value key = .array (l.map QJsonValue.string)) ∧
    (setData L _data c).dataobject.keys = (L.fromJson _data).toObject.keys ∧
    ((∀ s, L.systemSettings.lookup key ≠ some (.string s)) →
      (∀ l, L.systemSettings.lookup key ≠ some (.stringList l)) →
      (setData L _data c).dataobject.value key = (L.fromJson _data).toObject.value key) ∧
    (setData L _data c).data = _data := by
  refine ⟨?_, ?_, ?_, ?_, rfl⟩
  · intro s hc hl
    have hv : overrideValue L key = some (.string s) := by
      simp [overrideValue, settingsValue, hl]
    exact value_foldl_some L key _ hv _ _ ((contains_iff_mem_keys _ key).mp hc)
      (Or.inl (mem_keys_of_lookup _ key _ hl))
  · intro l hc hl
    have hv : overrideValue L key = some (fromStringList l) := by
      simp [overrideValue, settingsValue, hl]
    exact value_foldl_some L key _ hv _ _ ((contains_iff_mem_keys _ key).mp hc)
      (Or.inl (mem_keys_of_lookup _ key _ hl))
  · exact keys_foldl_applyOverride L _ _
  · intro hs hl
    have hv : overrideValue L key = none := by
      unfold overrideValue settingsValue
      cases hlk : L.systemSettings.lookup key with
      | none => rfl
      | some v =>
        cases v with
        | string s => exact absurd hlk (hs s)
        | stringList l => exact absurd hlk (hl l)
        | other n => rfl
    exact value_foldl_none L key hv _ _

/-- C10, at a concrete input: with a string override for `SIVA-URL` the merged example
document shows the override, keeps its two keys and its bytes. -/
theorem setData_override_merge_witness :
    (setData overrideLibs [5, 0] exampleStart).dataobject.keys = ["META-INF", "SIVA-URL"] ∧
    (setData overrideLibs [5, 0] exampleStart).data = [5, 0] ∧
    (setData overrideLibs [5, 0] exampleStart).dataobject.value "SIVA-URL" =
      .string "https://local.example" :=
  ⟨by decide, by decide,
    (setData_override_merge overrideLibs exampleStart [5, 0] "SIVA-URL").1
      "https://local.example" (by decide) (by rfl)⟩

/-! ## Reply handler: properties -/

/-- C1. A successful document response that does not validate against the downloaded
signature makes the handler emit exactly one outcome, `finished(false, invalidMessage)`,
and leaves the document bytes, the parsed document, the current signature and both cache
files as they were. -/
theorem onFinished_invalid_document (L : Libs) (now : Int) (reply : QNetworkReply)
    (next : Nat) (io : CacheOutcome)
    (c : Configuration) (herr : reply.error = none) (hurl : reply.url = c.url)
    (hrsa : reply.url ≠ c.rsaurl)
    (hval : validate L c.rsa now reply.body c.tmpsignature = false) :
    (onFinished L now reply next io c).finished = c.finished ++ [(false, invalidMessage)] ∧
    (onFinished L now reply next io c).data = c.data ∧
    (onFinished L now reply next io c).dataobject = c.dataobject ∧
    (onFinished L now reply next io c).signature = c.signature ∧
    (onFinished L now reply next io c).cacheJson = c.cacheJson ∧
    (onFinished L now reply next io c).cacheRsa = c.cacheRsa := by
  have hrsa2 : ¬ c.url = c.rsaurl := hurl ▸ hrsa
  simp [onFinished, onFinishedSwitch, herr, hurl, hrsa2, hval, emitFinished]

/-- C1, at a concrete input: the pending signature is the one of document `[6, 0]` and the
document response carries `[4, 0]`. -/
theorem onFinished_invalid_document_witness :
    (onFinished exampleLibs exampleNow (exampleDocumentReply [4, 0]) 2 CacheOutcome.ok
        (exampleAwaitingDocument [6, 0])).finished = [(true, ""), (false, invalidMessage)] ∧
    (onFinished exampleLibs exampleNow (exampleDocumentReply [4, 0]) 2 CacheOutcome.ok
        (exampleAwaitingDocument [6, 0])).data = [5, 0] :=
  ⟨(onFinished_invalid_document exampleLibs exampleNow (exampleDocumentReply [4, 0]) 2
      CacheOutcome.ok (exampleAwaitingDocument [6, 0])
      (by decide) (by decide) (by decide) (by decide)).1,
    (onFinished_invalid_document exampleLibs exampleNow (exampleDocumentReply [4, 0]) 2
      CacheOutcome.ok (exampleAwaitingDocument [6, 0])
      (by decide) (by decide) (by decide) (by decide)).2.1⟩

/-- C2, as the code behaves. For a successful document response that validates against the
downloaded signature: when its serial is strictly smaller than the serial of the current
parsed document, the current document and signature stay and the outcome is
`finished(false, olderMessage)`; when it is equal or greater, the response becomes the
current document and the outcome is `finished(true, "")`, whatever the file calls do. -/
theorem onFinished_validated_document (L : Libs) (now : Int) (reply : QNetworkReply)
    (next : Nat) (io : CacheOutcome)
    (c : Configuration) (herr : reply.error = none) (hurl : reply.url = c.url)
    (hrsa : reply.url ≠ c.rsaurl)
    (hval : validate L c.rsa now reply.body c.tmpsignature = true) :
    (serialOf (L.fromJson reply.body).toObject < serialOf c.dataobject →
      (onFinished L now reply next io c).data = c.data ∧
      (onFinished L now reply next io c).dataobject = c.dataobject ∧
      (onFinished L now reply next io c).signature = c.signature ∧
      (onFinished L now reply next io c).finished = c.finished ++ [(false, olderMessage)]) ∧
    (serialOf c.dataobject ≤ serialOf (L.fromJson reply.body).toObject →
      (onFinished L now reply next io c).data = reply.body ∧
      (onFinished L now reply next io c).dataobject = mergedObject L reply.body ∧
      (onFinished L now reply next io c).finished = c.finished ++ [(true, "")]) := by
  have hrsa2 : ¬ c.url = c.rsaurl := hurl ▸ hrsa
  constructor
  · intro hlt
    have hlt2 : ((c.dataobject.value "META-INF").toObject.value "SERIAL").toInt >
        (((L.fromJson reply.body).toObject.value "META-INF").toObject.value "SERIAL").toInt := hlt
    simp [onFinished, onFinishedSwitch, herr, hurl, hrsa2, hval, emitFinished, hlt2]
  · intro hle
    have hle2 : ¬ ((c.dataobject.value "META-INF").toObject.value "SERIAL").toInt >
        (((L.fromJson reply.body).toObject.value "META-INF").toObject.value "SERIAL").toInt :=
      not_lt.mpr hle
    simp [onFinished, onFinishedSwitch, herr, hurl, hrsa2, hval, emitFinished, hle2, setData]

/-- C2, at a concrete input: current serial 5, incoming serial 6, in a cache directory where
no file call succeeds. -/
theorem onFinished_validated_document_witness :
    (onFinished exampleLibs exampleNow (exampleDocumentReply [6, 0]) 2 CacheOutcome.failing
        (exampleAwaitingDocument [6, 0])).data = [6, 0] ∧
    (onFinished exampleLibs exampleNow (exampleDocumentReply [6, 0]) 2 CacheOutcome.failing
        (exampleAwaitingDocument [6, 0])).finished = [(true, ""), (true, "")] :=
  ⟨((onFinished_validated_document exampleLibs exampleNow (exampleDocumentReply [6, 0]) 2
      CacheOutcome.failing (exampleAwaitingDocument [6, 0])
      (by decide) (by decide) (by decide) (by decide)).2 (by decide)).1,
    ((onFinished_validated_document exampleLibs exampleNow (exampleDocumentReply [6, 0]) 2
      CacheOutcome.failing (exampleAwaitingDocument [6, 0])
      (by decide) (by decide) (by decide) (by decide)).2 (by decide)).2.2⟩

/-- C2 fails as stated: the current serial is 5, a validated response with serial 5 arrives,
and the handler adopts it and reports `finished(true, "")`. -/
theorem onFinished_equal_serial_counterexample :
    serialOf (exampleAwaitingDocument [5, 2]).dataobject = 5 ∧
    serialOf (exampleLibs.fromJson (exampleDocumentReply [5, 2]).body).toObject = 5 ∧
    validate exampleLibs (exampleAwaitingDocument [5, 2]).rsa exampleNow
      (exampleDocumentReply [5, 2]).body (exampleAwaitingDocument [5, 2]).tmpsignature = true ∧
    (exampleAwaitingDocument [5, 2]).data = [5, 0] ∧
    (onFinished exampleLibs exampleNow (exampleDocumentReply [5, 2]) 2 CacheOutcome.ok
        (exampleAwaitingDocument [5, 2])).data = [5, 2] ∧
    (onFinished exampleLibs exampleNow (exampleDocumentReply [5, 2]) 2 CacheOutcome.ok
        (exampleAwaitingDocument [5, 2])).finished = [(true, ""), (true, "")] := by
  decide

/-! ## The current pair: properties -/

/-- C3, the code at the failing input: the object starts with the validated bundled pair,
`update(false)` is called, the signature response and the document response for `[6, 0]`
arrive and the document validates against the downloaded signature.  After the commit the
stored current signature is the Base64 text of the signature that validated, it differs
from that signature, and `validate` accepts the stored pair at no time; after construction
the stored signature was the decoded signature, and `validate` accepted the stored pair. -/
theorem commit_stores_base64_signature :
    validate exampleLibs exampleStart.rsa exampleNow exampleStart.data
      exampleStart.signature = true ∧
    exampleStart.signature = fromBase64 exampleLibs.configRsa ∧
    (exampleAfterDocument [6, 0]).data = [6, 0] ∧
    (exampleAfterDocument [6, 0]).finished = [(true, ""), (true, "")] ∧
    validate exampleLibs (exampleAfterDocument [6, 0]).rsa exampleNow
      (exampleAfterDocument [6, 0]).data (exampleAfterDocument [6, 0]).tmpsignature = true ∧
    (exampleAfterDocument [6, 0]).signature =
      toBase64 (exampleAfterDocument [6, 0]).tmpsignature ∧
    (exampleAfterDocument [6, 0]).signature ≠ (exampleAfterDocument [6, 0]).tmpsignature ∧
    ¬ ∃ now : Int, validate exampleLibs (exampleAfterDocument [6, 0]).rsa now
      (exampleAfterDocument [6, 0]).data (exampleAfterDocument [6, 0]).signature = true := by
  refine ⟨by decide, by decide, by decide, by decide, by decide, by decide, by decide, ?_⟩
  rintro ⟨now, h⟩
  obtain ⟨key, hk, _, hd, _⟩ := (validate_eq_true_iff _ _ _ _ _).mp h
  have hkey : key = [1] := by
    have h1 : (exampleAfterDocument [6, 0]).rsa = some [1] := by decide
    rw [h1] at hk
    exact (Option.some.inj hk).symm
  subst hkey
  exact absurd hd (by decide)

/-! ## Timeout against reply: properties -/

theorem onFinishedSwitch_requestcache (L : Libs) (now : Int) (reply : QNetworkReply)
    (next : Nat) (io : CacheOutcome) (c : Configuration) :
    ∀ x, x ∈ (onFinishedSwitch L now reply next io c).requestcache →
      x ∈ c.requestcache ∨ x = next := by
  unfold onFinishedSwitch
  cases reply.error with
  | some e =>
    intro x hx
    exact Or.inl hx
  | none =>
    simp only []
    intro x
    split_ifs
    all_goals first
      | (intro hx; exact Or.inl hx)
      | (simp only [emitFinished, sendRequest, setData, List.mem_append, List.mem_singleton]
         tauto)

theorem onFinished_requestcache (L : Libs) (now : Int) (reply : QNetworkReply)
    (next : Nat) (io : CacheOutcome) (c : Configuration) :
    ∀ x, x ∈ (onFinished L now reply next io c).requestcache →
      (x ∈ c.requestcache ∧ x ≠ reply.id) ∨ x = next := by
  intro x hx
  rcases onFinishedSwitch_requestcache L now reply next io _ x hx with h | h
  · left
    simpa using h
  · exact Or.inr h

theorem onTimeout_requestcache (c : Configuration) (reply : Nat) :
    ∀ x, x ∈ (onTimeout c reply).requestcache → x ∈ c.requestcache := by
  unfold onTimeout
  split_ifs
  · simp
  · simp only [emitFinished, List.mem_filter]
    intro x hx
    exact hx.1

theorem update_requestcache (c : Configuration) (force : Bool) (reply : Nat) :
    ∀ x, x ∈ (update c force reply).requestcache → x ∈ c.requestcache ∨ x = reply := by
  simp [update, sendRequest]

theorem step_settled (L : Libs) (c : Configuration) (e : Event) (id : Nat)
    (h : id ∉ c.requestcache) (hfresh : id ∉ e.issued) :
    id ∉ (step L c e).requestcache := by
  cases e with
  | finished now reply next io =>
    intro hx
    rcases onFinished_requestcache L now reply next io c id hx with hx | hx
    · exact h hx.1
    · exact hfresh (by simp [Event.issued, hx])
  | timeout reply =>
    exact fun hx => h (onTimeout_requestcache c reply id hx)
  | update force reply =>
    intro hx
    rcases update_requestcache c force reply id hx with hx | hx
    · exact h hx
    · exact hfresh (by simp [Event.issued, hx])

theorem run_settled (L : Libs) (events : List Event) (c : Configuration) (id : Nat)
    (h : id ∉ c.requestcache) (hfresh : ∀ e ∈ events, id ∉ e.issued) :
    id ∉ (run L c events).requestcache := by
  induction events generalizing c with
  | nil => exact h
  | cons e es ih =>
    exact ih _ (step_settled L c e id h (hfresh e (List.mem_cons_self e es)))
      (fun e2 he2 => hfresh e2 (List.mem_cons_of_mem e he2))

theorem onTimeout_not_pending (c : Configuration) (id : Nat) (h : id ∉ c.requestcache) :
    onTimeout c id = c := by
  simp [onTimeout, h]

/-- C6, as the code behaves. When the timer of a request fires while the address of its
reply is in `requestcache`, exactly one outcome `finished(false, timedOutMessage)` is
emitted, the address leaves `requestcache`, `deleteLater()` is called on the reply, and the
current document, parsed document, signature and cache files stay.  The reply handler
treats a response in the same way whether or not its address is still in `requestcache`.
When the response of a request is handled first, and neither the handler nor any later
event puts the same reply address into `requestcache` again, the timer of that request,
firing after those events, changes nothing and emits nothing. -/
theorem timeout_and_reply (L : Libs) (c : Configuration) (now : Int) (reply : QNetworkReply)
    (next : Nat) (io : CacheOutcome) (events : List Event) :
    (reply.id ∈ c.requestcache →
      (onTimeout c reply.id).finished = c.finished ++ [(false, timedOutMessage)] ∧
      reply.id ∉ (onTimeout c reply.id).requestcache ∧
      (onTimeout c reply.id).deleted = c.deleted ++ [reply.id] ∧
      (onTimeout c reply.id).data = c.data ∧
      (onTimeout c reply.id).dataobject = c.dataobject ∧
      (onTimeout c reply.id).signature = c.signature ∧
      (onTimeout c reply.id).cacheJson = c.cacheJson ∧
      (onTimeout c reply.id).cacheRsa = c.cacheRsa) ∧
    onFinished L now reply next io
        { c with requestcache := c.requestcache.filter fun r => r != reply.id } =
      onFinished L now reply next io c ∧
    (next ≠ reply.id → (∀ e ∈ events, reply.id ∉ e.issued) →
      onTimeout (run L (onFinished L now reply next io c) events) reply.id =
        run L (onFinished L now reply next io c) events) := by
  refine ⟨?_, ?_, ?_⟩
  · intro hmem
    simp [onTimeout, hmem, emitFinished]
  · simp [onFinished, List.filter_filter]
  · intro hnext hfresh
    apply onTimeout_not_pending
    apply run_settled L events _ reply.id _ hfresh
    intro hx
    rcases onFinished_requestcache L now reply next io c reply.id hx with hx | hx
    · exact hx.2 rfl
    · exact hnext hx.symm

/-- C6, at a concrete input: the document request (reply 1) of the example is pending; its
timer gives one timed-out outcome, and after the response is handled the timer gives none. -/
theorem timeout_and_reply_witness :
    (onTimeout (exampleAwaitingDocument [6, 0]) 1).finished =
      [(true, ""), (false, timedOutMessage)] ∧
    (onTimeout (exampleAfterDocument [6, 0]) 1).finished = [(true, ""), (true, "")] :=
  ⟨((timeout_and_reply exampleLibs (exampleAwaitingDocument [6, 0]) exampleNow
      (exampleDocumentReply [6, 0]) 2 CacheOutcome.ok []).1 (by decide)).1,
    congrArg Configuration.finished
      ((timeout_and_reply exampleLibs (exampleAwaitingDocument [6, 0]) exampleNow
        (exampleDocumentReply [6, 0]) 2 CacheOutcome.ok []).2.2 (by decide)
          (fun e he => absurd he (List.not_mem_nil e)))⟩

/-- C6 fails as stated, in both directions.  Late response: the timer of the pending
document request fires and reports the timeout, the response is handed to the reply
handler afterwards, and the handler commits the document and emits a second outcome.
Response first: the signature response is handled (reply 0, deleted by the handler), a
second `update` gets a reply at the same address, and the timer of the first request then
evicts the second request and emits a timed-out outcome. -/
theorem late_reply_counterexample :
    ((exampleAwaitingDocument [6, 0]).requestcache = [1] ∧
      (onTimeout (exampleAwaitingDocument [6, 0]) 1).requestcache = [] ∧
      (onTimeout (exampleAwaitingDocument [6, 0]) 1).finished =
        [(true, ""), (false, timedOutMessage)] ∧
      (onTimeout (exampleAwaitingDocument [6, 0]) 1).data = [5, 0] ∧
      (onFinished exampleLibs exampleNow (exampleDocumentReply [6, 0]) 2 CacheOutcome.ok
        (onTimeout (exampleAwaitingDocument [6, 0]) 1)).finished =
        [(true, ""), (false, timedOutMessage), (true, "")] ∧
      (onFinished exampleLibs exampleNow (exampleDocumentReply [6, 0]) 2 CacheOutcome.ok
        (onTimeout (exampleAwaitingDocument [6, 0]) 1)).data = [6, 0]) ∧
    (exampleUnchanged.requestcache = [] ∧
      exampleUnchanged.deleted = [0] ∧
      exampleUnchanged.finished = [(true, ""), (false, "")] ∧
      (update exampleUnchanged false 0).requestcache = [0] ∧
      (onTimeout (update exampleUnchanged false 0) 0).requestcache = [] ∧
      (onTimeout (update exampleUnchanged false 0) 0).finished =
        [(true, ""), (false, ""), (false, timedOutMessage)]) := by
  decide

/-! ## Startup policy: properties -/

theorem serialOf_mergedObject (L : Libs) (_data : QByteArray)
    (hmeta : overrideValue L "META-INF" = none) :
    serialOf (mergedObject L _data) = serialOf (L.fromJson _data).toObject := by
  unfold serialOf mergedObject
  rw [value_foldl_none L "META-INF" hmeta]

theorem initCache_clear (L : Libs) (c : Configuration) :
    (initCache L true CacheOutcome.ok c).data = L.configJson ∧
    (initCache L true CacheOutcome.ok c).signature = fromBase64 L.configRsa ∧
    (initCache L true CacheOutcome.ok c).dataobject = mergedObject L L.configJson ∧
    (initCache L true CacheOutcome.ok c).rsa = c.rsa := by
  cases h1 : c.cacheJson <;> cases h2 : c.cacheRsa <;>
    simp [initCache, prepareFile, readFile, setData, CacheOutcome.ok, FileOutcome.ok, h1, h2]

theorem initCache_keep (L : Libs) (c : Configuration) :
    (initCache L false CacheOutcome.ok c).data = c.cacheJson.getD L.configJson ∧
    (initCache L false CacheOutcome.ok c).signature =
      fromBase64 (c.cacheRsa.getD L.configRsa) ∧
    (initCache L false CacheOutcome.ok c).dataobject =
      mergedObject L (c.cacheJson.getD L.configJson) ∧
    (initCache L false CacheOutcome.ok c).rsa = c.rsa := by
  cases h1 : c.cacheJson <;> cases h2 : c.cacheRsa <;>
    simp [initCache, prepareFile, readFile, setData, CacheOutcome.ok, FileOutcome.ok, h1, h2]

theorem startupPolicy_keep (L : Libs) (now : Int) (c : Configuration)
    (hv : validate L c.rsa now (c.cacheJson.getD L.configJson)
      (fromBase64 (c.cacheRsa.getD L.configRsa)) = true)
    (hs : serialOf (L.fromJson L.configJson).toObject ≤
      serialOf (mergedObject L (c.cacheJson.getD L.configJson))) :
    startupPolicy L now StartupOutcome.ok c = initCache L false CacheOutcome.ok c := by
  obtain ⟨h1, h2, h3, h4⟩ := initCache_keep L c
  unfold startupPolicy
  simp only [StartupOutcome.ok, h1, h2, h3, h4, hv, Bool.not_true, Bool.false_eq_true,
    if_false, if_true, not_lt.mpr hs]

theorem startupPolicy_reset (L : Libs) (now : Int) (c : Configuration)
    (h : ¬ (validate L c.rsa now (c.cacheJson.getD L.configJson)
        (fromBase64 (c.cacheRsa.getD L.configRsa)) = true ∧
      serialOf (L.fromJson L.configJson).toObject ≤
        serialOf (mergedObject L (c.cacheJson.getD L.configJson)))) :
    startupPolicy L now StartupOutcome.ok c =
      initCache L true CacheOutcome.ok (initCache L false CacheOutcome.ok c) := by
  obtain ⟨h1, h2, h3, h4⟩ := initCache_keep L c
  unfold startupPolicy
  simp only [StartupOutcome.ok, h1, h2, h3, h4]
  by_cases hv : validate L c.rsa now (c.cacheJson.getD L.configJson)
      (fromBase64 (c.cacheRsa.getD L.configRsa)) = true
  · have hs : serialOf (mergedObject L (c.cacheJson.getD L.configJson)) <
        serialOf (L.fromJson L.configJson).toObject := by
      by_contra hc
      exact h ⟨hv, not_lt.mp hc⟩
    simp only [hv, Bool.not_true, Bool.false_eq_true, if_false, hs, if_true]
  · have hv2 : validate L c.rsa now (c.cacheJson.getD L.configJson)
        (fromBase64 (c.cacheRsa.getD L.configRsa)) = false := by
      simpa using hv
    simp only [hv2, Bool.not_false, if_true]

/-- C7, as the code behaves. With a public key that loads, no string or string-list
override for `META-INF`, and a cache directory in which every file call of the constructor
succeeds: the object is constructed with the cached pair (the bundled pair when the cache
directory has no file) when that pair validates and its serial is not lower than the
bundled serial, and with the bundled pair otherwise; and the serial of the constructed
object is not lower than the bundled serial. -/
theorem construct_startup_policy (L : Libs) (now : Int) (url rsaurl : String)
    (cacheRsa cacheJson : Option QByteArray) (key rsa : QByteArray)
    (hpub : L.configPub = some key) (hpem : L.PEM_read_bio_RSAPublicKey key = some rsa)
    (hmeta : overrideValue L "META-INF" = none) :
    (validate L (some rsa) now (cacheJson.getD L.configJson)
        (fromBase64 (cacheRsa.getD L.configRsa)) = true ∧
      serialOf (L.fromJson L.configJson).toObject ≤
        serialOf (L.fromJson (cacheJson.getD L.configJson)).toObject →
      (Configuration.construct L now StartupOutcome.ok url rsaurl cacheRsa cacheJson).data =
        cacheJson.getD L.configJson ∧
      (Configuration.construct L now StartupOutcome.ok url rsaurl cacheRsa
        cacheJson).signature = fromBase64 (cacheRsa.getD L.configRsa) ∧
      (Configuration.construct L now StartupOutcome.ok url rsaurl cacheRsa
        cacheJson).dataobject = mergedObject L (cacheJson.getD L.configJson)) ∧
    (¬ (validate L (some rsa) now (cacheJson.getD L.configJson)
        (fromBase64 (cacheRsa.getD L.configRsa)) = true ∧
      serialOf (L.fromJson L.configJson).toObject ≤
        serialOf (L.fromJson (cacheJson.getD L.configJson)).toObject) →
      (Configuration.construct L now StartupOutcome.ok url rsaurl cacheRsa cacheJson).data =
        L.configJson ∧
      (Configuration.construct L now StartupOutcome.ok url rsaurl cacheRsa
        cacheJson).signature = fromBase64 L.configRsa ∧
      (Configuration.construct L now StartupOutcome.ok url rsaurl cacheRsa
        cacheJson).dataobject = mergedObject L L.configJson) ∧
    serialOf (L.fromJson L.configJson).toObject ≤
      serialOf (Configuration.construct L now StartupOutcome.ok url rsaurl cacheRsa
        cacheJson).dataobject := by
  have hc : Configuration.construct L now StartupOutcome.ok url rsaurl cacheRsa cacheJson =
      emitFinished (startupPolicy L now StartupOutcome.ok
        { Configuration.fresh url rsaurl cacheRsa cacheJson with rsa := some rsa }) true "" := by
    simp [Configuration.construct, hpub, hpem]
  have keep : validate L (some rsa) now (cacheJson.getD L.configJson)
        (fromBase64 (cacheRsa.getD L.configRsa)) = true ∧
      serialOf (L.fromJson L.configJson).toObject ≤
        serialOf (L.fromJson (cacheJson.getD L.configJson)).toObject →
      Configuration.construct L now StartupOutcome.ok url rsaurl cacheRsa cacheJson =
        emitFinished (initCache L false CacheOutcome.ok
          { Configuration.fresh url rsaurl cacheRsa cacheJson with rsa := some rsa }) true "" := by
    rintro ⟨hv, hs⟩
    rw [hc, startupPolicy_keep L now _ hv]
    rw [serialOf_mergedObject L _ hmeta]
    exact hs
  have reset : ¬ (validate L (some rsa) now (cacheJson.getD L.configJson)
        (fromBase64 (cacheRsa.getD L.configRsa)) = true ∧
      serialOf (L.fromJson L.configJson).toObject ≤
        serialOf (L.fromJson (cacheJson.getD L.configJson)).toObject) →
      Configuration.construct L now StartupOutcome.ok url rsaurl cacheRsa cacheJson =
        emitFinished (initCache L true CacheOutcome.ok (initCache L false CacheOutcome.ok
          { Configuration.fresh url rsaurl cacheRsa cacheJson with rsa := some rsa })) true "" := by
    intro h
    rw [hc, startupPolicy_reset L now _ _]
    rw [serialOf_mergedObject L _ hmeta]
    exact h
  refine ⟨?_, ?_, ?_⟩
  · intro h
    rw [keep h]
    obtain ⟨h1, h2, h3, _⟩ := initCache_keep L
      { Configuration.fresh url rsaurl cacheRsa cacheJson with rsa := some rsa }
    exact ⟨h1, h2, h3⟩
  · intro h
    rw [reset h]
    obtain ⟨h1, h2, h3, _⟩ := initCache_clear L (initCache L false CacheOutcome.ok
      { Configuration.fresh url rsaurl cacheRsa cacheJson with rsa := some rsa })
    exact ⟨h1, h2, h3⟩
  · by_cases h : validate L (some rsa) now (cacheJson.getD L.configJson)
        (fromBase64 (cacheRsa.getD L.configRsa)) = true ∧
      serialOf (L.fromJson L.configJson).toObject ≤
        serialOf (L.fromJson (cacheJson.getD L.configJson)).toObject
    · rw [keep h]
      obtain ⟨_, _, h3, _⟩ := initCache_keep L
        { Configuration.fresh url rsaurl cacheRsa cacheJson with rsa := some rsa }
      have h4 : (emitFinished (initCache L false CacheOutcome.ok
          { Configuration.fresh url rsaurl cacheRsa cacheJson with rsa := some rsa })
          true "").dataobject = mergedObject L (cacheJson.getD L.configJson) := h3
      rw [h4, serialOf_mergedObject L _ hmeta]
      exact h.2
    · rw [reset h]
      obtain ⟨_, _, h3, _⟩ := initCache_clear L (initCache L false CacheOutcome.ok
        { Configuration.fresh url rsaurl cacheRsa cacheJson with rsa := some rsa })
      have h4 : (emitFinished (initCache L true CacheOutcome.ok
          (initCache L false CacheOutcome.ok
            { Configuration.fresh url rsaurl cacheRsa cacheJson with rsa := some rsa }))
          true "").dataobject = mergedObject L L.configJson := h3
      rw [h4, serialOf_mergedObject L _ hmeta]

/-- C7, at a concrete input: the cache holds the validating document `[7, 0]`, the bundled
document is `[5, 0]`, and the object is constructed with `[7, 0]`. -/
theorem construct_startup_policy_witness :
    (Configuration.construct exampleLibs exampleNow StartupOutcome.ok exampleUrl exampleRsaUrl
      (some (toBase64 (SHA256_OID ++ [7, 0]))) (some [7, 0])).data = [7, 0] ∧
    serialOf exampleStart.dataobject = 5 :=
  ⟨((construct_startup_policy exampleLibs exampleNow exampleUrl exampleRsaUrl
      (some (toBase64 (SHA256_OID ++ [7, 0]))) (some [7, 0]) [1] [1] rfl rfl rfl).1
        (by decide)).1, by decide⟩

/-- C7 fails as stated, in two ways.  With a string override for `META-INF`, and every file
call succeeding, the cached pair `[7, 0]` validates and has serial 7 against the bundled
serial 5, yet the object is constructed with the bundled document, and the serial of its
parsed document reads 0.  With an empty cache directory in which no file call succeeds,
the object is constructed with no document at all, and its serial reads 0. -/
theorem startup_policy_counterexample :
    (validate overrideLibs (some [1]) exampleNow [7, 0]
        (fromBase64 (toBase64 (SHA256_OID ++ [7, 0]))) = true ∧
      serialOf (overrideLibs.fromJson [7, 0]).toObject = 7 ∧
      serialOf (overrideLibs.fromJson overrideLibs.configJson).toObject = 5 ∧
      (Configuration.construct overrideLibs exampleNow StartupOutcome.ok exampleUrl
        exampleRsaUrl (some (toBase64 (SHA256_OID ++ [7, 0]))) (some [7, 0])).data = [5, 0] ∧
      serialOf (Configuration.construct overrideLibs exampleNow StartupOutcome.ok exampleUrl
        exampleRsaUrl (some (toBase64 (SHA256_OID ++ [7, 0]))) (some [7, 0])).dataobject = 0) ∧
    (exampleLibs.configJson = [5, 0] ∧
      serialOf (exampleLibs.fromJson exampleLibs.configJson).toObject = 5 ∧
      (Configuration.construct exampleLibs exampleNow StartupOutcome.failing exampleUrl
        exampleRsaUrl none none).data = [] ∧
      serialOf (Configuration.construct exampleLibs exampleNow StartupOutcome.failing
        exampleUrl exampleRsaUrl none none).dataobject = 0) := by
  decide

end QtCommon
